/-
Verification of the sparse-TSDF CUDA kernels in
`cpp/open3d/core/kernel/GeneralEWCUDA.cu`.

The kernels are shallowly embedded: per-workload float arithmetic is
modelled over `ℚ` (exact arithmetic on the same expressions the source
computes), machine `int64_t` coordinates over `ℤ` with C-style truncating
division (`Int.tdiv`), and the atomic slot-reservation pattern as a
sequential fold (`atomicAdd` serialises slot assignment, so any
interleaving yields the same multiset of write rows).
-/
import Mathlib

set_option maxHeartbeats 1000000

/-- One voxel of the block pool: two `f32` channels, `tsdf` and `weight`
(`voxel_ptr[0]` and `voxel_ptr[1]` in the source), modelled over `ℚ`. -/
structure Voxel where
  tsdf : ℚ
  weight : ℚ
  deriving DecidableEq, Repr

/-- The per-voxel body of `CUDATSDFIntegrateKernel`
(GeneralEWCUDA.cu lines 236-258), for a workload whose voxel projects
inside the depth image: `depth` is the raw sample `depth[v,u]`, divided by
`depth_scale`; `zc` is the camera-space depth of the voxel.  The guard and
the running-average update follow the source line by line. -/
def integrateVoxel (sdf_trunc depth_scale rawDepth zc : ℚ) (v : Voxel) :
    Voxel :=
  let depth := rawDepth / depth_scale
  let sdf := depth - zc
  if depth ≤ 0 ∨ zc ≤ 0 ∨ sdf < -sdf_trunc then v
  else
    let sdf1 := if sdf < sdf_trunc then sdf else sdf_trunc
    let sdf2 := sdf1 / sdf_trunc
    { tsdf := (v.weight * v.tsdf + sdf2) / (v.weight + 1),
      weight := v.weight + 1 }

/-- The discard predicate of the integrate kernel (source line 241). -/
def integrateDiscard (sdf_trunc depth_scale rawDepth zc : ℚ) : Prop :=
  rawDepth / depth_scale ≤ 0 ∨ zc ≤ 0 ∨
    rawDepth / depth_scale - zc < -sdf_trunc

instance (sdf_trunc depth_scale rawDepth zc : ℚ) :
    Decidable (integrateDiscard sdf_trunc depth_scale rawDepth zc) := by
  unfold integrateDiscard
  infer_instance

theorem integrateVoxel_of_discard (sdf_trunc depth_scale rawDepth zc : ℚ)
    (v : Voxel) (h : integrateDiscard sdf_trunc depth_scale rawDepth zc) :
    integrateVoxel sdf_trunc depth_scale rawDepth zc v = v := by
  unfold integrateVoxel
  simp only [integrateDiscard] at h
  simp [h]

theorem integrateVoxel_of_not_discard (sdf_trunc depth_scale rawDepth zc : ℚ)
    (v : Voxel)
    (h : ¬ integrateDiscard sdf_trunc depth_scale rawDepth zc) :
    integrateVoxel sdf_trunc depth_scale rawDepth zc v =
      { tsdf := (v.weight * v.tsdf +
          (min (rawDepth / depth_scale - zc) sdf_trunc) / sdf_trunc) /
          (v.weight + 1),
        weight := v.weight + 1 } := by
  unfold integrateVoxel
  simp only [integrateDiscard] at h
  simp only [h, if_neg]
  by_cases hlt : rawDepth / depth_scale - zc < sdf_trunc
  · simp [hlt, min_eq_left hlt.le]
  · push_neg at hlt
    simp [if_neg (not_lt.mpr hlt), min_eq_right hlt]

/-- C1: the full update law of the integrate kernel, stated with the
`min` formulation used by the spec of the clamp. -/
theorem integrate_update_law (sdf_trunc depth_scale rawDepth zc t w : ℚ) :
    integrateVoxel sdf_trunc depth_scale rawDepth zc ⟨t, w⟩ =
      if rawDepth / depth_scale ≤ 0 ∨ zc ≤ 0 ∨
          rawDepth / depth_scale - zc < -sdf_trunc then
        (⟨t, w⟩ : Voxel)
      else
        ⟨(w * t + (min (rawDepth / depth_scale - zc) sdf_trunc) / sdf_trunc)
            / (w + 1),
          w + 1⟩ := by
  by_cases h : integrateDiscard sdf_trunc depth_scale rawDepth zc
  · rw [integrateVoxel_of_discard _ _ _ _ _ h]
    simp only [integrateDiscard] at h
    simp [h]
  · rw [integrateVoxel_of_not_discard _ _ _ _ _ h]
    simp only [integrateDiscard] at h
    simp [h]

/-- The clamped, normalised SDF written by the integrate kernel lies in
`[-1, 1]` whenever the truncation guard passed (source lines 241-245). -/
theorem sdf_clamp_bounds (sdf sdf_trunc : ℚ) (h : -sdf_trunc ≤ sdf) :
    -1 ≤ min sdf sdf_trunc / sdf_trunc ∧ min sdf sdf_trunc / sdf_trunc ≤ 1 := by
  rcases lt_trichotomy sdf_trunc 0 with htr | htr | htr
  · have hmin : min sdf sdf_trunc = sdf_trunc := min_eq_right (by linarith)
    rw [hmin, div_self (ne_of_lt htr)]
    norm_num
  · rw [htr]
    norm_num
  · constructor
    · rw [le_div_iff₀ htr]
      have hlo : -sdf_trunc ≤ min sdf sdf_trunc := le_min h (by linarith)
      linarith
    · rw [div_le_one htr]
      exact min_le_right _ _

/-- C2: one integrate step preserves the data-model invariant
`weight ≥ 0 ∧ (weight > 0 → tsdf ∈ [-1, 1])` at every voxel. -/
theorem integrate_preserves_invariant
    (sdf_trunc depth_scale rawDepth zc : ℚ) (v : Voxel)
    (hw : 0 ≤ v.weight) (ht : 0 < v.weight → -1 ≤ v.tsdf ∧ v.tsdf ≤ 1) :
    0 ≤ (integrateVoxel sdf_trunc depth_scale rawDepth zc v).weight ∧
      (0 < (integrateVoxel sdf_trunc depth_scale rawDepth zc v).weight →
        -1 ≤ (integrateVoxel sdf_trunc depth_scale rawDepth zc v).tsdf ∧
          (integrateVoxel sdf_trunc depth_scale rawDepth zc v).tsdf ≤ 1) := by
  by_cases h : integrateDiscard sdf_trunc depth_scale rawDepth zc
  · rw [integrateVoxel_of_discard _ _ _ _ _ h]
    exact ⟨hw, ht⟩
  · rw [integrateVoxel_of_not_discard _ _ _ _ _ h]
    have hsdf : -sdf_trunc ≤ rawDepth / depth_scale - zc := by
      simp only [integrateDiscard] at h
      push_neg at h
      exact (h.2.2 : _)
    obtain ⟨hs1, hs2⟩ := sdf_clamp_bounds (rawDepth / depth_scale - zc)
      sdf_trunc hsdf
    set s : ℚ := min (rawDepth / depth_scale - zc) sdf_trunc / sdf_trunc
      with hs
    have hw1 : (0 : ℚ) < v.weight + 1 := by linarith
    refine ⟨by simp only; linarith, fun _ => ?_⟩
    simp only
    rcases eq_or_lt_of_le hw with hw0 | hwpos
    · rw [← hw0]
      simp only [zero_mul, zero_add, div_one]
      exact ⟨hs1, hs2⟩
    · obtain ⟨ht1, ht2⟩ := ht hwpos
      constructor
      · rw [le_div_iff₀ hw1]
        nlinarith [mul_nonneg hw (by linarith : (0 : ℚ) ≤ v.tsdf + 1)]
      · rw [div_le_one hw1]
        nlinarith [mul_nonneg hw (by linarith : (0 : ℚ) ≤ 1 - v.tsdf)]

/-- Witness for `integrate_preserves_invariant` at a concrete voxel and
sample. -/
theorem integrate_preserves_invariant_witness :
    0 ≤ (integrateVoxel 1 1 2 1 ⟨(1 : ℚ) / 2, 1⟩).weight ∧
      (0 < (integrateVoxel 1 1 2 1 ⟨(1 : ℚ) / 2, 1⟩).weight →
        -1 ≤ (integrateVoxel 1 1 2 1 ⟨(1 : ℚ) / 2, 1⟩).tsdf ∧
          (integrateVoxel 1 1 2 1 ⟨(1 : ℚ) / 2, 1⟩).tsdf ≤ 1) :=
  integrate_preserves_invariant 1 1 2 1 ⟨(1 : ℚ) / 2, 1⟩ (by norm_num)
    (fun _ => by norm_num)

/-- C10: a non-discarded update of a voxel whose weight is `0` sets the
tsdf channel exactly to the clamped normalised sdf, regardless of the
previously stored tsdf value, and sets the weight to `1`. -/
theorem integrate_fresh_overwrites (sdf_trunc depth_scale rawDepth zc t : ℚ)
    (h : ¬ integrateDiscard sdf_trunc depth_scale rawDepth zc) :
    integrateVoxel sdf_trunc depth_scale rawDepth zc ⟨t, 0⟩ =
      ⟨min (rawDepth / depth_scale - zc) sdf_trunc / sdf_trunc, 1⟩ := by
  rw [integrateVoxel_of_not_discard _ _ _ _ _ h]
  simp

/-- Witness for `integrate_fresh_overwrites`: the stale tsdf `5` is
overwritten. -/
theorem integrate_fresh_overwrites_witness :
    integrateVoxel 1 1 2 1 ⟨5, 0⟩ = ⟨1, 1⟩ := by
  rw [integrate_fresh_overwrites 1 1 2 1 5
    (by simp only [integrateDiscard]; norm_num)]
  norm_num

/-- C9: integrating the same observation twice into a fresh voxel
(weight `0`) yields the tsdf of a single integration, and weight `2`
wherever a single integration yields weight `1`. -/
theorem integrate_twice_fresh (sdf_trunc depth_scale rawDepth zc t : ℚ) :
    (integrateVoxel sdf_trunc depth_scale rawDepth zc
        (integrateVoxel sdf_trunc depth_scale rawDepth zc ⟨t, 0⟩)).tsdf =
      (integrateVoxel sdf_trunc depth_scale rawDepth zc ⟨t, 0⟩).tsdf ∧
    ((integrateVoxel sdf_trunc depth_scale rawDepth zc ⟨t, 0⟩).weight = 1 →
      (integrateVoxel sdf_trunc depth_scale rawDepth zc
        (integrateVoxel sdf_trunc depth_scale rawDepth zc ⟨t, 0⟩)).weight
        = 2) := by
  by_cases h : integrateDiscard sdf_trunc depth_scale rawDepth zc
  · rw [integrateVoxel_of_discard _ _ _ _ _ h,
      integrateVoxel_of_discard _ _ _ _ _ h]
    exact ⟨rfl, fun hw => absurd hw (by norm_num)⟩
  · rw [integrateVoxel_of_not_discard _ _ _ _ _ h,
      integrateVoxel_of_not_discard _ _ _ _ _ h]
    simp only [zero_mul, zero_add, div_one, one_mul]
    constructor
    · ring
    · intro _
      norm_num

/-- Modelled from the spec: `TransformIndexer::Unproject` lives in
`GeneralIndexer.h`, which is not among the given sources; spec 4.2 gives
`xc = (x - cx) * d / fx`, `yc = (y - cy) * d / fy`, `zc = d`. -/
def unproject (fx fy cx cy x y d : ℚ) : ℚ × ℚ × ℚ :=
  ((x - cx) * d / fx, (y - cy) * d / fy, d)

/-- Per-pixel body of `CUDAUnprojectKernel` (source lines 77-92): the
sample is divided by `depth_scale`, zeroed at or beyond `depth_max`, and
unprojected. -/
def unprojectPixel (fx fy cx cy depth_scale depth_max rawDepth x y : ℚ) :
    ℚ × ℚ × ℚ :=
  let d := rawDepth / depth_scale
  let d1 := if depth_max ≤ d then 0 else d
  unproject fx fy cx cy x y d1

/-- C8: a pixel whose scaled depth reaches `depth_max` unprojects to the
zero vertex. -/
theorem unproject_far_plane_zero
    (fx fy cx cy depth_scale depth_max rawDepth x y : ℚ)
    (h : depth_max ≤ rawDepth / depth_scale) :
    unprojectPixel fx fy cx cy depth_scale depth_max rawDepth x y =
      (0, 0, 0) := by
  unfold unprojectPixel unproject
  simp only [if_pos h, mul_zero, zero_div]

/-- Witness for `unproject_far_plane_zero` at a concrete far-plane
sample. -/
theorem unproject_far_plane_zero_witness :
    unprojectPixel 100 100 50 50 1 1 2 3 4 = (0, 0, 0) :=
  unproject_far_plane_zero 100 100 50 50 1 1 2 3 4 (by norm_num)

/-- Modelled from the spec: the dtype cast `Tensor::To(Int64)` applied at
source line 122 is implemented in the tensor library, which is not among
the given sources; spec 4.5 describes the combined computation as
`floor(points / block_size)` cast to i64, so the cast of the quotient is
modelled as the floor. -/
def tensorCastInt64 (q : ℚ) : ℤ := ⌊q⌋

/-- Block-key computation of `CUDATSDFTouchKernel` (source lines
120-122): `block_size = voxel_size * resolution`, `block_coordd = p /
block_size`, `block_coordi = block_coordd.To(Int64)`, per coordinate. -/
def touchBlockKey (voxel_size : ℚ) (resolution : ℤ) (p : ℚ) : ℤ :=
  let block_size := voxel_size * (resolution : ℚ)
  tensorCastInt64 (p / block_size)

/-- C4: the block key computed by the touch kernel is the floor of `p / block_size`,
for every input coordinate, negative ones included. -/
theorem touch_block_key_floor (voxel_size : ℚ) (resolution : ℤ) (p : ℚ) :
    touchBlockKey voxel_size resolution p =
      ⌊p / (voxel_size * (resolution : ℚ))⌋ := rfl

/-- The neighbor-voxel lookup outcome for one +1 axis step in surface
extraction: the `nb_masks` bit for the block of the neighbor, and the two
channels read through `nb_indices` (source lines 360-375). -/
structure NbVoxel where
  mask : Bool
  tsdf : ℚ
  weight : ℚ
  deriving DecidableEq, Repr

/-- Per-voxel, per-axis body of `CUDASurfaceExtractionKernel` (source
lines 337-389): `(x, y, z)` is the world coordinate of the origin voxel in
voxels, `(tsdf_o, weight_o)` its channels, `nb` the +1 neighbor along
axis `i`.  Returns the point the workload emits for this axis, if any. -/
def extractPointAxis (voxel_size : ℚ) (x y z : ℤ) (tsdf_o weight_o : ℚ)
    (nb : NbVoxel) (i : Fin 3) : Option (ℚ × ℚ × ℚ) :=
  if weight_o = 0 then none
  else if nb.mask = false then none
  else if 0 < nb.weight ∧ nb.tsdf * tsdf_o < 0 then
    let frac := nb.tsdf / (nb.tsdf - tsdf_o)
    some (voxel_size * ((x : ℚ) + frac * (if i = 0 then 1 else 0)),
          voxel_size * ((y : ℚ) + frac * (if i = 1 then 1 else 0)),
          voxel_size * ((z : ℚ) + frac * (if i = 2 then 1 else 0)))
  else none

/-- The interpolation coefficient of a strict zero crossing lies in
`[0, 1]`. -/
theorem zero_crossing_coeff_unit (a b : ℚ) (h : a * b < 0) :
    0 ≤ a / (a - b) ∧ a / (a - b) ≤ 1 := by
  rcases mul_neg_iff.mp h with ⟨ha, hb⟩ | ⟨ha, hb⟩
  · have hd : (0 : ℚ) < a - b := by linarith
    exact ⟨div_nonneg ha.le hd.le, (div_le_one hd).mpr (by linarith)⟩
  · rw [← neg_div_neg_eq]
    have hd2 : (0 : ℚ) < -(a - b) := by linarith
    exact ⟨div_nonneg (by linarith) hd2.le, (div_le_one hd2).mpr (by linarith)⟩

/-- C3: every point emitted by a surface-extraction workload comes from
an origin voxel and its +1 neighbor along one axis with both weights
positive (given the data-model invariant `weight_o ≥ 0`) and strictly
opposite tsdf signs, and equals
`voxel_size * (world_coord + frac * unit_axis)` with the interpolation
coefficient `frac = tsdf_i / (tsdf_i - tsdf_o)` in `[0, 1]`. -/
theorem surface_extraction_emits_zero_crossings
    (voxel_size : ℚ) (x y z : ℤ) (tsdf_o weight_o : ℚ) (nb : NbVoxel)
    (i : Fin 3) (p : ℚ × ℚ × ℚ)
    (hw : 0 ≤ weight_o)
    (h : extractPointAxis voxel_size x y z tsdf_o weight_o nb i = some p) :
    0 < weight_o ∧ 0 < nb.weight ∧ nb.tsdf * tsdf_o < 0 ∧
      0 ≤ nb.tsdf / (nb.tsdf - tsdf_o) ∧ nb.tsdf / (nb.tsdf - tsdf_o) ≤ 1 ∧
      p = (voxel_size *
            ((x : ℚ) + nb.tsdf / (nb.tsdf - tsdf_o) *
              (if i = 0 then 1 else 0)),
          voxel_size *
            ((y : ℚ) + nb.tsdf / (nb.tsdf - tsdf_o) *
              (if i = 1 then 1 else 0)),
          voxel_size *
            ((z : ℚ) + nb.tsdf / (nb.tsdf - tsdf_o) *
              (if i = 2 then 1 else 0))) := by
  unfold extractPointAxis at h
  by_cases h0 : weight_o = 0
  · rw [if_pos h0] at h
    exact absurd h (by simp)
  · rw [if_neg h0] at h
    by_cases h1 : nb.mask = false
    · rw [if_pos h1] at h
      exact absurd h (by simp)
    · rw [if_neg h1] at h
      by_cases h2 : 0 < nb.weight ∧ nb.tsdf * tsdf_o < 0
      · rw [if_pos h2] at h
        obtain ⟨hwn, hsign⟩ := h2
        obtain ⟨hc0, hc1⟩ := zero_crossing_coeff_unit nb.tsdf tsdf_o hsign
        exact ⟨lt_of_le_of_ne hw (Ne.symm h0), hwn, hsign, hc0, hc1,
          (Option.some.inj h).symm⟩
      · rw [if_neg h2] at h
        exact absurd h (by simp)

/-- Witness for `surface_extraction_emits_zero_crossings`: a concrete
zero crossing along the x axis emits the midpoint. -/
theorem surface_extraction_emits_zero_crossings_witness :
    0 < (1 : ℚ) ∧ 0 < (NbVoxel.mk true 1 1).weight ∧
      (NbVoxel.mk true 1 1).tsdf * (-1) < 0 ∧
      0 ≤ (NbVoxel.mk true 1 1).tsdf / ((NbVoxel.mk true 1 1).tsdf - (-1)) ∧
      (NbVoxel.mk true 1 1).tsdf / ((NbVoxel.mk true 1 1).tsdf - (-1)) ≤ 1 ∧
      ((1 : ℚ) / 2, (0 : ℚ), (0 : ℚ)) = ((1 : ℚ) *
            (((0 : ℤ) : ℚ) + (NbVoxel.mk true 1 1).tsdf /
              ((NbVoxel.mk true 1 1).tsdf - (-1)) *
              (if (0 : Fin 3) = 0 then 1 else 0)),
          (1 : ℚ) *
            (((0 : ℤ) : ℚ) + (NbVoxel.mk true 1 1).tsdf /
              ((NbVoxel.mk true 1 1).tsdf - (-1)) *
              (if (0 : Fin 3) = 1 then 1 else 0)),
          (1 : ℚ) *
            (((0 : ℤ) : ℚ) + (NbVoxel.mk true 1 1).tsdf /
              ((NbVoxel.mk true 1 1).tsdf - (-1)) *
              (if (0 : Fin 3) = 2 then 1 else 0))) :=
  surface_extraction_emits_zero_crossings 1 0 0 0 (-1) 1
    (NbVoxel.mk true 1 1) 0 ((1 : ℚ) / 2, (0 : ℚ), (0 : ℚ)) (by norm_num)
    (by norm_num [extractPointAxis, Fin.ext_iff])

/-- The +1-offset coordinates and block deltas computed inside the
central-difference loops of Marching Cubes Pass 1. -/
structure McDeltas where
  xvs1 : ℤ
  yvs1 : ℤ
  zvs1 : ℤ
  dxbs1 : ℤ
  dybs1 : ℤ
  dzbs1 : ℤ
  deriving DecidableEq, Repr

/-- The origin-normal loop of `CUDAMarchingCubesKernel` Pass 1 (source
lines 613-624): offsets of the voxel `(xv, yv, zv)` along `axis`, and
the `int64_t` divisions producing the +1-side block deltas.  Line 623
divides `xvs[1]`, not `yvs[1]`; line 624 divides `zvs[1]`. -/
def mcOriginNormalDeltas (resolution xv yv zv : ℤ) (axis : Fin 3) :
    McDeltas :=
  let xvs1 := xv + (if axis = 0 then 1 else 0)
  let yvs1 := yv + (if axis = 1 then 1 else 0)
  let zvs1 := zv + (if axis = 2 then 1 else 0)
  { xvs1 := xvs1, yvs1 := yvs1, zvs1 := zvs1,
    dxbs1 := xvs1.tdiv resolution,
    dybs1 := xvs1.tdiv resolution,
    dzbs1 := zvs1.tdiv resolution }

/-- The edge-normal loop of `CUDAMarchingCubesKernel` Pass 1 (source
lines 692-703), based at the edge endpoint `(xv_e, yv_e, zv_e)`:
line 702 divides `xvs[1]`, not `yvs[1]`; line 703 divides `zvs[1]`. -/
def mcEdgeNormalDeltas (resolution xv_e yv_e zv_e : ℤ) (axis : Fin 3) :
    McDeltas :=
  let xvs1 := xv_e + (if axis = 0 then 1 else 0)
  let yvs1 := yv_e + (if axis = 1 then 1 else 0)
  let zvs1 := zv_e + (if axis = 2 then 1 else 0)
  { xvs1 := xvs1, yvs1 := yvs1, zvs1 := zvs1,
    dxbs1 := xvs1.tdiv resolution,
    dybs1 := xvs1.tdiv resolution,
    dzbs1 := zvs1.tdiv resolution }

/-- C5 counterexample: in the origin-normal loop at `resolution = 8`,
voxel `(7, 0, 0)`, axis `x`, the computed `dzbs[1]` is `0` while
`xvs[1] / resolution` is `1`, so `dzbs[1]` is not computed from
`xvs[1]`. -/
theorem mc_dzbs_not_from_xvs :
    ¬ ((mcOriginNormalDeltas 8 7 0 0 0).dzbs1 =
        ((mcOriginNormalDeltas 8 7 0 0 0).xvs1).tdiv 8) := by
  decide

/-- C5 (amended): in both central-difference loops, `dybs[1]` is computed
from `xvs[1]` (the typo) but `dzbs[1]` is computed from `zvs[1]`; and the
`xvs[1]`-based `dybs[1]` is observably different from the intended
`yvs[1] / resolution` on some input. -/
theorem mc_central_difference_deltas
    (resolution xv yv zv xv_e yv_e zv_e : ℤ) (axis : Fin 3) :
    ((mcOriginNormalDeltas resolution xv yv zv axis).dybs1 =
        ((mcOriginNormalDeltas resolution xv yv zv axis).xvs1).tdiv
          resolution ∧
      (mcOriginNormalDeltas resolution xv yv zv axis).dzbs1 =
        ((mcOriginNormalDeltas resolution xv yv zv axis).zvs1).tdiv
          resolution) ∧
    ((mcEdgeNormalDeltas resolution xv_e yv_e zv_e axis).dybs1 =
        ((mcEdgeNormalDeltas resolution xv_e yv_e zv_e axis).xvs1).tdiv
          resolution ∧
      (mcEdgeNormalDeltas resolution xv_e yv_e zv_e axis).dzbs1 =
        ((mcEdgeNormalDeltas resolution xv_e yv_e zv_e axis).zvs1).tdiv
          resolution) ∧
    (mcOriginNormalDeltas 8 0 7 0 1).dybs1 ≠
      ((mcOriginNormalDeltas 8 0 7 0 1).yvs1).tdiv 8 :=
  ⟨⟨rfl, rfl⟩, ⟨rfl, rfl⟩, by decide⟩

/-- Row capacity of the surface-extraction output buffer (source line
310): `min(n * 3, 10000000)` rows, where `n = K * R^3` is the workload
count. -/
def pointsCapacity (n : ℕ) : ℕ := min (n * 3) 10000000

/-- The slot-reservation/write pattern of the extraction emission
(source lines 381-388): `idx = atomicAdd(count, 1)` and the point is
written at row `idx`, with no capacity check.  `atomicAdd` serialises
slot assignment, so a launch is modelled as a sequential pass over the
per-(voxel, axis) emission decisions; `c` is the current counter value
and the result lists the rows written. -/
def runWrites : List Bool → ℕ → List ℕ
  | [], _ => []
  | true :: es, c => c :: runWrites es (c + 1)
  | false :: es, c => runWrites es c

theorem runWrites_eq_range_map (emits : List Bool) (c : ℕ) :
    runWrites emits c = (List.range (emits.count true)).map (· + c) := by
  induction emits generalizing c with
  | nil => simp [runWrites]
  | cons e es ih =>
    cases e with
    | true =>
      rw [runWrites, ih (c + 1)]
      simp only [List.count_cons, beq_self_eq_true, if_pos, List.range_succ_eq_map,
        List.map_cons, List.map_map, zero_add, cond_true]
      refine congrArg₂ _ rfl (List.map_congr_left fun k _ => ?_)
      simp [Function.comp, Nat.succ_eq_add_one]
      omega
    | false =>
      rw [runWrites, ih]
      simp [List.count_cons]

theorem runWrites_zero (emits : List Bool) :
    runWrites emits 0 = List.range (emits.count true) := by
  rw [runWrites_eq_range_map]
  simp

/-- C6 counterexample: a launch of `n = 3333334` workloads
(`capacity = min(3 * n, 10000000) = 10000000` rows) in which
`10000001` zero crossings are found writes row `10000000`, at the
capacity: the crossing found once the buffer is full is written out of
bounds, not dropped. -/
theorem surface_extraction_overflow_write :
    (List.replicate 10000001 true ++ List.replicate 1 false).length =
        3333334 * 3 ∧
      10000000 ∈
        runWrites (List.replicate 10000001 true ++ List.replicate 1 false)
          0 ∧
      ¬ (10000000 < pointsCapacity 3333334) := by
  refine ⟨?_, ?_, by norm_num [pointsCapacity]⟩
  · rw [List.length_append, List.length_replicate, List.length_replicate]
  · rw [runWrites_zero, List.mem_range, List.count_append,
      List.count_replicate, List.count_replicate]
    norm_num

/-- C6 (amended): the emission performs no capacity check, writing the
`i`-th emitted point at row `i`; so no write at or beyond the capacity
row occurs exactly when the number of crossings stays within capacity,
which the buffer sizing guarantees whenever `3 * K * R^3` does not exceed
the 10,000,000-row cap. -/
theorem surface_extraction_writes_below_capacity
    (emits : List Bool) (n : ℕ)
    (hlen : emits.length = n * 3) (hn : n * 3 ≤ 10000000) :
    ∀ row ∈ runWrites emits 0, row < pointsCapacity n := by
  intro row hr
  rw [runWrites_zero, List.mem_range] at hr
  have hcount : emits.count true ≤ n * 3 := hlen ▸ List.count_le_length true emits
  have hcap : pointsCapacity n = n * 3 := min_eq_left hn
  omega

/-- Witness for `surface_extraction_writes_below_capacity` on a one-block
launch: its first write row stays below the capacity. -/
theorem surface_extraction_writes_below_capacity_witness :
    0 < pointsCapacity 1 :=
  surface_extraction_writes_below_capacity [true, false, true] 1
    (by simp) (by norm_num) 0 (by decide)

/-- The op codes accepted by the dispatcher `GeneralEWCUDA`
(source lines 763-793). -/
inductive GeneralEWOpCode where
  | Unproject
  | TSDFTouch
  | TSDFIntegrate
  | TSDFSurfaceExtraction
  | MarchingCubes
  | RayCasting
  | Debug
  deriving DecidableEq, Repr

/-- The kernel function each op code dispatches to (source lines
766-792); `RayCasting` and `Debug` run no named kernel. -/
def dispatchTarget : GeneralEWOpCode → Option String
  | .Unproject => some "CUDAUnprojectKernel"
  | .TSDFTouch => some "CUDATSDFTouchKernel"
  | .TSDFIntegrate => some "CUDATSDFIntegrateKernel"
  | .TSDFSurfaceExtraction => some "CUDASurfaceExtractionKernel"
  | .MarchingCubes => some "CUDAMarchingCubesKernel"
  | .RayCasting => none
  | .Debug => none

/-- The `src_attrs` list each kernel checks on entry (source lines
45-50, 100-104, 155-159, 266-269, 402-405). -/
def requiredSrcs : GeneralEWOpCode → List String
  | .Unproject => ["depth", "intrinsics", "depth_scale", "depth_max"]
  | .TSDFTouch => ["points", "voxel_size", "resolution"]
  | .TSDFIntegrate =>
      ["depth", "indices", "block_keys", "intrinsics", "extrinsics",
        "resolution", "voxel_size", "sdf_trunc", "depth_scale"]
  | .TSDFSurfaceExtraction =>
      ["indices", "nb_indices", "nb_masks", "block_keys", "block_values",
        "voxel_size", "resolution"]
  | .MarchingCubes =>
      ["indices", "inv_indices", "nb_indices", "nb_masks", "block_keys",
        "block_values", "voxel_size", "resolution"]
  | _ => []

/-- The bracketed kernel name embedded in each missing-src-key
`LogError` message (source lines 54, 109, 163, 273, 409).  The message of the surface
extraction kernel carries `CPUTSDFIntegrateKernel`
(line 273). -/
def errTag : GeneralEWOpCode → String
  | .Unproject => "CUDAUnprojectKernel"
  | .TSDFTouch => "CUDATSDFTouchKernel"
  | .TSDFIntegrate => "CUDATSDFIntegrateKernel"
  | .TSDFSurfaceExtraction => "CPUTSDFIntegrateKernel"
  | .MarchingCubes => "CUDAMarchingCubesKernel"
  | _ => ""

/-- The `dsts` keys a kernel checks before launching: only the marching
cubes kernel checks one (`mesh_structure`, source lines 433-438); the
integrate kernel reads `dsts.at("block_values")` with no check
(line 172). -/
def checkedDsts : GeneralEWOpCode → List String
  | .MarchingCubes => ["mesh_structure"]
  | _ => []

/-- The required `dsts` keys per the interface table of spec section 6
(claim-side definition, for comparison with `checkedDsts`). -/
def specRequiredDsts : GeneralEWOpCode → List String
  | .TSDFIntegrate => ["block_values"]
  | .MarchingCubes => ["mesh_structure"]
  | _ => []

/-- A raised missing-key error: the kernel tag between the brackets of the message
and the key name interpolated into it. -/
structure KeyErr where
  tag : String
  key : String
  deriving DecidableEq, Repr

/-- The src-key presence check at the top of each kernel (e.g. source
lines 51-58): the first required key absent from the supplied `srcs`
raises `LogError` with the message tag of the kernel and that key; the check
precedes every tensor access, so an error leaves all tensors
unmodified. -/
def checkSrcs (op : GeneralEWOpCode) (present : List String) :
    Option KeyErr :=
  match (requiredSrcs op).find? (fun k => !(present.contains k)) with
  | some k => some ⟨errTag op, k⟩
  | none => none

/-- C7 counterexample: calling surface extraction without `indices`
raises an error, but its message names `CPUTSDFIntegrateKernel`, not the
executing kernel `CUDASurfaceExtractionKernel`. -/
theorem surface_extraction_error_names_wrong_op :
    checkSrcs GeneralEWOpCode.TSDFSurfaceExtraction [] =
        some ⟨"CPUTSDFIntegrateKernel", "indices"⟩ ∧
      some (errTag GeneralEWOpCode.TSDFSurfaceExtraction) ≠
        dispatchTarget GeneralEWOpCode.TSDFSurfaceExtraction := by
  exact ⟨rfl, by decide⟩

/-- C7 (amended): for every op and required `srcs` key, a call missing
exactly that key raises a fatal error naming the key, before any tensor
is touched; the message names the executing kernel for every op except
surface extraction, whose message names `CPUTSDFIntegrateKernel`; the
marching cubes `dsts` key `mesh_structure` is checked likewise, while
the integrate kernel does not check its `dsts` key `block_values`. -/
theorem missing_src_key_raises_named_error (op : GeneralEWOpCode)
    (k : String) (hk : k ∈ requiredSrcs op) :
    checkSrcs op ((requiredSrcs op).erase k) = some ⟨errTag op, k⟩ ∧
      (op ≠ GeneralEWOpCode.TSDFSurfaceExtraction →
        dispatchTarget op = none ∨ dispatchTarget op = some (errTag op)) ∧
      (op = GeneralEWOpCode.TSDFSurfaceExtraction →
        errTag op = "CPUTSDFIntegrateKernel") ∧
      "mesh_structure" ∈ checkedDsts GeneralEWOpCode.MarchingCubes ∧
      "block_values" ∉ checkedDsts GeneralEWOpCode.TSDFIntegrate ∧
      "block_values" ∈ specRequiredDsts GeneralEWOpCode.TSDFIntegrate := by
  cases op <;> revert hk <;> revert k <;> decide

/-- Witness for `missing_src_key_raises_named_error`: the unproject
kernel called without `depth`. -/
theorem missing_src_key_raises_named_error_witness :
    checkSrcs GeneralEWOpCode.Unproject
        ((requiredSrcs GeneralEWOpCode.Unproject).erase "depth") =
        some ⟨errTag GeneralEWOpCode.Unproject, "depth"⟩ ∧
      (GeneralEWOpCode.Unproject ≠
          GeneralEWOpCode.TSDFSurfaceExtraction →
        dispatchTarget GeneralEWOpCode.Unproject = none ∨
          dispatchTarget GeneralEWOpCode.Unproject =
            some (errTag GeneralEWOpCode.Unproject)) ∧
      (GeneralEWOpCode.Unproject =
          GeneralEWOpCode.TSDFSurfaceExtraction →
        errTag GeneralEWOpCode.Unproject = "CPUTSDFIntegrateKernel") ∧
      "mesh_structure" ∈ checkedDsts GeneralEWOpCode.MarchingCubes ∧
      "block_values" ∉ checkedDsts GeneralEWOpCode.TSDFIntegrate ∧
      "block_values" ∈ specRequiredDsts GeneralEWOpCode.TSDFIntegrate :=
  missing_src_key_raises_named_error GeneralEWOpCode.Unproject "depth"
    (by decide)
